import Mathlib

/-!
Verification development for the folder-monitoring repository.

The repository recursively inventories a directory tree (three scanner
variants: `collectFolderInfo` in `src/scripts/transfer.ts`,
`collectFolderInfo` in the unnamed transfer script `src/unnamed/part_000`,
and `getFolderInfo` in `src/app/utils/folderUtils.ts`), serializes the
result to JSON and uploads it over SFTP.

The filesystem is modelled as the tree of observations the scanners can
make through `readdirSync` / `statSync`:

* `Entry.file name size mtimeMs` — an entry whose `stat` succeeds and
  reports a regular file of `size` bytes, modified at `mtimeMs`
  (milliseconds since the epoch, as carried by a JS `Date`).
* `Entry.dir name statSize readable entries` — an entry whose `stat`
  succeeds and reports a directory; `statSize` is the size field of the
  directory's own stat record; `readable = false` means `readdirSync` on
  this directory throws, `readable = true` means it returns `entries`
  in listing order.
* `Entry.statFail name` — an entry listed by the parent whose own
  `statSync` throws.

The filesystem is deterministic: repeated `readdir`/`stat` calls on the
same path (the scanners and `getLatestModifiedFile` both list the same
directory) observe the same `Entry`.
-/

set_option maxHeartbeats 1000000

inductive Entry : Type where
  | file (name : String) (size : Nat) (mtimeMs : Nat)
  | dir (name : String) (statSize : Nat) (readable : Bool) (entries : List Entry)
  | statFail (name : String)
deriving Repr

/-- The basename under which the entry appears in its parent's listing. -/
def Entry.name : Entry → String
  | .file n _ _ => n
  | .dir n _ _ _ => n
  | .statFail n => n

/-- `FileInfo` of `src/app/utils/fileUtils.ts` (string variant, the one
`part_000` imports): `lastModified` is the string produced by
`formatDate(stat.mtime)`, which keeps only whole seconds.  We model the
string by the whole-second count it denotes: `lastModifiedSec = mtimeMs / 1000`;
`new Date(lastModified)` then reads back as `lastModifiedSec * 1000`
milliseconds. -/
structure FileInfo where
  name : String
  size : Nat
  lastModifiedSec : Nat
deriving Repr, DecidableEq

/-- `FileInfo` of the second `fileUtils` variant, whose `lastModified`
is the raw `Date` (millisecond precision). -/
structure FileInfoB where
  name : String
  size : Nat
  lastModifiedMs : Nat
deriving Repr, DecidableEq

/-- Union of the `FolderInfo` records of the three sources.
`folderUtils.ts` has fields `path, size, folderCount, fileCount, subFolders`;
`transfer.ts` has `path, size, fileCount, subFolders`;
`part_000` has `path, size, fileCount, subFolders, latestFile?`.
Each scanner leaves the fields its source does not declare at their
zero value (`folderCount = 0`, `latestFile = none`). -/
inductive FolderInfo : Type where
  | mk (path : String) (size : Nat) (folderCount : Nat) (fileCount : Nat)
      (subFolders : List FolderInfo) (latestFile : Option FileInfo)

def FolderInfo.path : FolderInfo → String
  | .mk p _ _ _ _ _ => p

def FolderInfo.size : FolderInfo → Nat
  | .mk _ s _ _ _ _ => s

def FolderInfo.folderCount : FolderInfo → Nat
  | .mk _ _ d _ _ _ => d

def FolderInfo.fileCount : FolderInfo → Nat
  | .mk _ _ _ c _ _ => c

def FolderInfo.subFolders : FolderInfo → List FolderInfo
  | .mk _ _ _ _ sf _ => sf

def FolderInfo.latestFile : FolderInfo → Option FileInfo
  | .mk _ _ _ _ _ lf => lf

/-- `RESTRICTED_FOLDERS` of `src/scripts/transfer.ts` and of
`src/unnamed/part_000` (the two lists are identical). -/
def RESTRICTED_FOLDERS : List String :=
  ["Recovery", "System Volume Information", "$RECYCLE.BIN", "Config.Msi",
   "Documents and Settings", "Program Files", "Program Files (x86)",
   "ProgramData", "Windows", "Windows.old"]

/-- `RESTRICTED_FOLDERS` of `src/app/utils/folderUtils.ts`. -/
def FolderUtils.RESTRICTED_FOLDERS : List String :=
  ["$RECYCLE.BIN", "System Volume Information"]

/-!
`collectFolderInfo` of `src/scripts/transfer.ts` (lines 101–143).

The source mutates `info.size`, `info.fileCount`, `info.subFolders` in a
loop over `fs.readdirSync(folderPath)`; we thread the three mutable
fields as an accumulator `(size, fileCount, subFolders)` through the
listing, left to right, exactly as the loop does.  The surrounding
`try { readdirSync ... } catch { }` means a path whose listing fails
(unreadable directory, or a non-directory path) falls through to
`return info` with the initial zero values — no exception ever escapes,
which is why the model is a total function.  The inner
`try { statSync ... } catch { continue }` skips `statFail` entries, and
the `RESTRICTED_FOLDERS.includes(item)` check runs before `statSync`.
-/

mutual

def Transfer.collectFolderInfo : Entry → FolderInfo
  | .file n _ _ => .mk n 0 0 0 [] none
  | .statFail n => .mk n 0 0 0 [] none
  | .dir n _ false _ => .mk n 0 0 0 [] none
  | .dir n _ true es =>
      let r := Transfer.collectList es (0, 0, [])
      .mk n r.1 0 r.2.1 r.2.2 none

def Transfer.collectList : List Entry → Nat × Nat × List FolderInfo → Nat × Nat × List FolderInfo
  | [], acc => acc
  | e :: rest, acc =>
      if RESTRICTED_FOLDERS.contains e.name then
        Transfer.collectList rest acc
      else
        match e with
        | .statFail _ => Transfer.collectList rest acc
        | .file _ s _ => Transfer.collectList rest (acc.1 + s, acc.2.1 + 1, acc.2.2)
        | .dir n ss r es =>
            let sub := Transfer.collectFolderInfo (.dir n ss r es)
            Transfer.collectList rest
              (acc.1 + sub.size, acc.2.1 + sub.fileCount, acc.2.2 ++ [sub])

end

/-!
`getLatestModifiedFile` of `src/app/utils/fileUtils.ts`, string variant
(the one `part_000` imports together with `formatFileSize`).  It lists
the directory itself (`fs.existsSync` + `fs.readdirSync`); if either
step throws it catches and returns `null`.  For each listed entry whose
`statSync` succeeds and reports a regular file it builds a `FileInfo`
whose `lastModified` is `formatDate(stat.mtime)` — whole seconds only —
and replaces the current candidate when
`stat.mtime > new Date(latestFile.lastModified)`, i.e. when the new
entry's millisecond instant exceeds the stored candidate's instant
truncated to whole seconds.  Entries whose `statSync` throws are
skipped; directories are skipped (`stat.isFile()` is false).
-/

def FileUtils.latestLoop : List Entry → Option FileInfo → Option FileInfo
  | [], acc => acc
  | e :: rest, acc =>
      match e with
      | .file n s m =>
          match acc with
          | none => FileUtils.latestLoop rest (some ⟨n, s, m / 1000⟩)
          | some l =>
              if l.lastModifiedSec * 1000 < m then
                FileUtils.latestLoop rest (some ⟨n, s, m / 1000⟩)
              else
                FileUtils.latestLoop rest (some l)
      | _ => FileUtils.latestLoop rest acc

def FileUtils.getLatestModifiedFile : Entry → Option FileInfo
  | .dir _ _ true es => FileUtils.latestLoop es none
  | _ => none

/-!
`getLatestModifiedFile` of the second `fileUtils` variant, which stores
`lastModified: Date` (`stat.mtime` itself, millisecond precision) and
compares `fileInfo.lastModified > latestFile.lastModified`.
-/

def FileUtilsB.latestLoop : List Entry → Option FileInfoB → Option FileInfoB
  | [], acc => acc
  | e :: rest, acc =>
      match e with
      | .file n s m =>
          match acc with
          | none => FileUtilsB.latestLoop rest (some ⟨n, s, m⟩)
          | some l =>
              if l.lastModifiedMs < m then
                FileUtilsB.latestLoop rest (some ⟨n, s, m⟩)
              else
                FileUtilsB.latestLoop rest (some l)
      | _ => FileUtilsB.latestLoop rest acc

def FileUtilsB.getLatestModifiedFile : Entry → Option FileInfoB
  | .dir _ _ true es => FileUtilsB.latestLoop es none
  | _ => none

/-!
`collectFolderInfo` of `src/unnamed/part_000` (lines 65–113).  Identical
to the `transfer.ts` scanner except that, still inside the outer `try`
and after the loop, it calls `getLatestModifiedFile(folderPath)` (the
string variant above, over the same listing) and stores the result in
`info.latestFile` when non-null.  When `readdirSync` throws, the outer
`catch` fires before that call, so a failed directory read yields the
zero node with no `latestFile`.
-/

mutual

def Part000.collectFolderInfo : Entry → FolderInfo
  | .file n _ _ => .mk n 0 0 0 [] none
  | .statFail n => .mk n 0 0 0 [] none
  | .dir n _ false _ => .mk n 0 0 0 [] none
  | .dir n _ true es =>
      let r := Part000.collectList es (0, 0, [])
      .mk n r.1 0 r.2.1 r.2.2 (FileUtils.latestLoop es none)

def Part000.collectList : List Entry → Nat × Nat × List FolderInfo → Nat × Nat × List FolderInfo
  | [], acc => acc
  | e :: rest, acc =>
      if RESTRICTED_FOLDERS.contains e.name then
        Part000.collectList rest acc
      else
        match e with
        | .statFail _ => Part000.collectList rest acc
        | .file _ s _ => Part000.collectList rest (acc.1 + s, acc.2.1 + 1, acc.2.2)
        | .dir n ss r es =>
            let sub := Part000.collectFolderInfo (.dir n ss r es)
            Part000.collectList rest
              (acc.1 + sub.size, acc.2.1 + sub.fileCount, acc.2.2 ++ [sub])

end

/-!
`getFolderInfo` of `src/app/utils/folderUtils.ts` (lines 19–79).
Differences from the two scanners above, all visible in the source:

* it first `stat`s the path itself and seeds `info.size` with
  `stats.size` — the directory's own stat size;
* it maintains `info.folderCount`, incremented for every non-restricted
  child whose `stat` succeeds and reports a directory, before the
  recursive call is attempted;
* the recursive call sits in its own `try`: when the child recursion
  throws (its `stat` or `readdir` failed), the child is skipped — it is
  not pushed onto `subFolders` — and the loop continues;
* the outer `catch` rethrows a wrapped `Error`, so a root whose `stat`
  or `readdir` fails makes `getFolderInfo` raise.  We model the raising
  function with `Except String FolderInfo`.

The accumulator threads `(size, folderCount, fileCount, subFolders)`.
-/

mutual

def FolderUtils.getFolderInfo : Entry → Except String FolderInfo
  | .statFail _ => .error "stat failed"
  | .file _ _ _ => .error "readdir failed"
  | .dir _ _ false _ => .error "readdir failed"
  | .dir n ss true es =>
      let r := FolderUtils.goList es (ss, 0, 0, [])
      .ok (.mk n r.1 r.2.1 r.2.2.1 r.2.2.2 none)

def FolderUtils.goList : List Entry → Nat × Nat × Nat × List FolderInfo → Nat × Nat × Nat × List FolderInfo
  | [], acc => acc
  | e :: rest, acc =>
      if FolderUtils.RESTRICTED_FOLDERS.contains e.name then
        FolderUtils.goList rest acc
      else
        match e with
        | .statFail _ => FolderUtils.goList rest acc
        | .file _ s _ =>
            FolderUtils.goList rest (acc.1 + s, acc.2.1, acc.2.2.1 + 1, acc.2.2.2)
        | .dir n ss r es =>
            match FolderUtils.getFolderInfo (.dir n ss r es) with
            | .ok sub =>
                FolderUtils.goList rest
                  (acc.1 + sub.size, acc.2.1 + 1, acc.2.2.1 + sub.fileCount,
                   acc.2.2.2 ++ [sub])
            | .error _ =>
                FolderUtils.goList rest (acc.1, acc.2.1 + 1, acc.2.2.1, acc.2.2.2)

end

/-!
Measuring functions used to state the aggregation properties.  They are
property-side: they read the same listing the scanners read and tally
what the spec calls "the regular files directly inside the directory"
(those file entries that survive the restricted-name filter; entries
whose `stat` fails are invisible to every scanner) and the child nodes
a scanner produces.
-/

/-- Total size of the non-restricted regular files directly in a listing. -/
def immFileSizes (R : List String) : List Entry → Nat
  | [] => 0
  | .file n s _ :: rest => (if R.contains n then 0 else s) + immFileSizes R rest
  | _ :: rest => immFileSizes R rest

/-- Number of non-restricted regular files directly in a listing. -/
def immFileCount (R : List String) : List Entry → Nat
  | [] => 0
  | .file n _ _ :: rest => (if R.contains n then 0 else 1) + immFileCount R rest
  | _ :: rest => immFileCount R rest

/-- Child nodes the `transfer.ts` scanner produces for a listing, in order. -/
def subsOfT : List Entry → List FolderInfo
  | [] => []
  | .dir n ss r es :: rest =>
      if RESTRICTED_FOLDERS.contains n then subsOfT rest
      else Transfer.collectFolderInfo (.dir n ss r es) :: subsOfT rest
  | _ :: rest => subsOfT rest

/-- Child nodes the `part_000` scanner produces for a listing, in order. -/
def subsOfP : List Entry → List FolderInfo
  | [] => []
  | .dir n ss r es :: rest =>
      if RESTRICTED_FOLDERS.contains n then subsOfP rest
      else Part000.collectFolderInfo (.dir n ss r es) :: subsOfP rest
  | _ :: rest => subsOfP rest

/-- Child nodes `getFolderInfo` produces for a listing: non-restricted
directory children whose recursive scan succeeded, in order. -/
def subsOfU : List Entry → List FolderInfo
  | [] => []
  | .dir n ss r es :: rest =>
      if FolderUtils.RESTRICTED_FOLDERS.contains n then subsOfU rest
      else
        match FolderUtils.getFolderInfo (.dir n ss r es) with
        | .ok sub => sub :: subsOfU rest
        | .error _ => subsOfU rest
  | _ :: rest => subsOfU rest

/-- Non-restricted directory children of a listing (what `getFolderInfo`
counts in `folderCount`: the stat succeeded and reported a directory,
whether or not the recursion then succeeds). -/
def immDirCountU : List Entry → Nat
  | [] => 0
  | .dir n _ _ _ :: rest =>
      (if FolderUtils.RESTRICTED_FOLDERS.contains n then 0 else 1) + immDirCountU rest
  | _ :: rest => immDirCountU rest

/-- Non-restricted directory children whose own directory read fails
(the children whose recursive `getFolderInfo` raises). -/
def failedDirCountU : List Entry → Nat
  | [] => 0
  | .dir n _ false _ :: rest =>
      (if FolderUtils.RESTRICTED_FOLDERS.contains n then 0 else 1) + failedDirCountU rest
  | _ :: rest => failedDirCountU rest

/-- The entries that survive the restricted-name filter of list `R`. -/
def keepEntry (R : List String) (e : Entry) : Bool :=
  !(R.contains e.name)


/-!
Configuration loading, `loadConfig` of `src/unnamed/part_000`
(lines 43–63).  The source reads `config.json`; a missing file, a JSON
parse error, or a falsy required field (`folderPath`, `sftp.host`,
`sftp.username`, `sftp.password`) throws, the `catch` logs and calls
`process.exit(1)`.  We model the parsed file as `Option Config` (`none`
= missing or unparsable) with absent/empty string fields as `""` (the
falsy string), and model `process.exit(1)` as `Except Nat` carrying the
exit code.
-/

structure Config where
  folderPath : String
  host : String
  port : Nat
  username : String
  password : String
  remotePath : String
deriving Repr, DecidableEq

def Part000.loadConfig : Option Config → Except Nat Config
  | none => .error 1
  | some c =>
      if c.folderPath = "" ∨ c.host = "" ∨ c.username = "" ∨ c.password = "" then
        .error 1
      else .ok c

/-- Terminal event of the SFTP stage of a run, one per handler wired in
`transferFolderInfo` (both `transfer.ts` lines 192–235 and `part_000`
lines 143–187, which are identical here):
`conn.on error` (connection failure), the `conn.sftp` callback error,
`writeStream.on error` (upload stream failure), and
`writeStream.on close` (clean close). -/
inductive TransferEvent : Type where
  | cleanClose
  | uploadStreamError
  | sftpOpenError
  | connectionError
deriving Repr, DecidableEq

/-- Remote destination of the report file:
`path.join(remotePath, fileName).replace(/\\/g, '/')` on a POSIX-style
remote path. -/
def Transfer.remoteFilePath (remotePath fileName : String) : String :=
  remotePath ++ "/" ++ fileName

/-- One SFTP-session effect of `transferFolderInfo`. -/
inductive SftpOp : Type where
  | mkdirCall (p : String)
  | openWrite (p : String)
  | unlinkLocalReport
  | endConnection
deriving Repr, DecidableEq

def SftpOp.isMkdirCall : SftpOp → Bool
  | .mkdirCall _ => true
  | _ => false

/-- The SFTP-session effects `transferFolderInfo` performs, in order,
when the session terminates with the given event — read off the handler
wiring of `transfer.ts` lines 192–235 (identical in `part_000`):
a connection error only logs; an error in the `conn.sftp` callback ends
the connection; otherwise the write stream for the remote file path is
opened and piped, then `close` unlinks the local report file and ends
the connection, while a stream `error` logs and ends the connection
without unlinking.  No handler ever issues an SFTP `mkdir`. -/
def Transfer.transferOps (remotePath fileName : String) : TransferEvent → List SftpOp
  | .connectionError => []
  | .sftpOpenError => [.endConnection]
  | .cleanClose =>
      [.openWrite (Transfer.remoteFilePath remotePath fileName),
       .unlinkLocalReport, .endConnection]
  | .uploadStreamError =>
      [.openWrite (Transfer.remoteFilePath remotePath fileName), .endConnection]

/-- Exit code of one `part_000` run.  `process.exit(1)` appears only in
`loadConfig`'s catch; `startTransfer` catches everything else and merely
logs, every SFTP handler merely logs (and possibly ends the connection),
and `collectFolderInfo` swallows scan errors — so once the config loads,
the node process drains its event loop and exits 0 whatever the root
entry looked like and however the transfer ended. -/
def Part000.runExitCode (cfg : Option Config) (_root : Entry) (_ev : TransferEvent) : Nat :=
  match Part000.loadConfig cfg with
  | .error code => code
  | .ok _ => 0

/-!
`ensureRemoteDirectory` of `src/scripts/transfer.ts` (lines 145–171).
`remotePath.split('/').filter(Boolean)` keeps the non-empty segments;
the loop extends `currentPath` one segment at a time and calls
`sftp.mkdir(currentPath)` on each prefix; an error with `code === 4`
("directory already exists" in this SFTP stack) resolves like success,
any other error rejects and the function rethrows it.  The remote's
responses are modelled by an oracle `mkdirRes : String → Option Nat`
(`none` = mkdir succeeded, `some code` = mkdir failed with that code);
the function returns the prefixes it created (or tolerated) in order,
or the first fatal error code.
-/

def Transfer.ensureLoop (mkdirRes : String → Option Nat) :
    List String → String → List String → Except Nat (List String)
  | [], _, acc => .ok acc
  | part :: rest, current, acc =>
      let cur := if current = "" then part else current ++ "/" ++ part
      match mkdirRes cur with
      | none => Transfer.ensureLoop mkdirRes rest cur (acc ++ [cur])
      | some code =>
          if code = 4 then Transfer.ensureLoop mkdirRes rest cur (acc ++ [cur])
          else .error code

def Transfer.ensureRemoteDirectory (mkdirRes : String → Option Nat)
    (remotePath : String) : Except Nat (List String) :=
  Transfer.ensureLoop mkdirRes ((remotePath.splitOn "/").filter (fun s => s ≠ "")) "" []

/-- The successive prefixes (`currentPath` values) of a segment list:
`segPaths ["a","b","c"] "" = ["a", "a/b", "a/b/c"]`. -/
def segPaths : List String → String → List String
  | [], _ => []
  | part :: rest, current =>
      let cur := if current = "" then part else current ++ "/" ++ part
      cur :: segPaths rest cur

/-!
The three size formatters:
`formatSize` in `src/app/utils/folderUtils.ts` (lines 81–92),
`formatFileSize` in the `fileUtils` variants (identical in both),
`formatSize` in `src/scripts/transfer.ts` (lines 88–99).
Each declares `units = ['B','KB','MB','GB','TB']` and runs
`while (size >= 1024 && unitIndex < units.length - 1) { size /= 1024; unitIndex++ }`,
then renders `size.toFixed(2) + ' ' + units[unitIndex]`.

A byte count is an integer, and dividing a JS float by 1024 only shifts
its binary exponent, so every intermediate `size` equals the exact
rational `bytes / 1024^unitIndex`; we therefore compute in `ℚ`.  The
guard forces `unitIndex < 4` and `unitIndex` grows by one per
iteration, so the loop body runs at most four times: running the loop
on fuel 4 reproduces it exactly (when the fuel runs out `unitIndex`
has reached 4 and the guard is false anyway).
`toFixed(2)` picks the integer `n` with `n / 100` closest to the value,
preferring the larger `n` on ties (ECMA-262), i.e. `n = ⌊100x + 1/2⌋`
for the non-negative exact values arising here.
-/

def unitsList : List String := ["B", "KB", "MB", "GB", "TB"]

def toFixed2 (x : ℚ) : String :=
  let n : ℤ := ⌊x * 100 + 1 / 2⌋
  toString (n / 100) ++ "." ++ (if n % 100 < 10 then "0" else "") ++ toString (n % 100)

def FolderUtils.formatLoop : Nat → ℚ → Nat → ℚ × Nat
  | 0, size, unitIndex => (size, unitIndex)
  | fuel + 1, size, unitIndex =>
      if 1024 ≤ size ∧ unitIndex < 4 then
        FolderUtils.formatLoop fuel (size / 1024) (unitIndex + 1)
      else (size, unitIndex)

def FolderUtils.formatSize (bytes : ℚ) : String :=
  let r := FolderUtils.formatLoop 4 bytes 0
  toFixed2 r.1 ++ " " ++ unitsList.getD r.2 ""

def FileUtils.formatLoop : Nat → ℚ → Nat → ℚ × Nat
  | 0, size, unitIndex => (size, unitIndex)
  | fuel + 1, size, unitIndex =>
      if 1024 ≤ size ∧ unitIndex < 4 then
        FileUtils.formatLoop fuel (size / 1024) (unitIndex + 1)
      else (size, unitIndex)

def FileUtils.formatFileSize (bytes : ℚ) : String :=
  let r := FileUtils.formatLoop 4 bytes 0
  toFixed2 r.1 ++ " " ++ unitsList.getD r.2 ""

def Transfer.formatLoop : Nat → ℚ → Nat → ℚ × Nat
  | 0, size, unitIndex => (size, unitIndex)
  | fuel + 1, size, unitIndex =>
      if 1024 ≤ size ∧ unitIndex < 4 then
        Transfer.formatLoop fuel (size / 1024) (unitIndex + 1)
      else (size, unitIndex)

def Transfer.formatSize (bytes : ℚ) : String :=
  let r := Transfer.formatLoop 4 bytes 0
  toFixed2 r.1 ++ " " ++ unitsList.getD r.2 ""

/-- The unit index the claim describes: the smallest `k` with
`bytes / 1024^k < 1024`, capped at `4`. -/
def kOf (b : ℚ) : Nat :=
  if b < 1024 then 0
  else if b < 1024 ^ 2 then 1
  else if b < 1024 ^ 3 then 2
  else if b < 1024 ^ 4 then 3
  else 4

/-!  Closed forms of the three scanners' loops. -/

theorem Transfer.collectListSpecT :
    ∀ (es : List Entry) (s0 c0 : Nat) (subs0 : List FolderInfo),
      Transfer.collectList es (s0, c0, subs0) =
        (s0 + (immFileSizes RESTRICTED_FOLDERS es
                + ((subsOfT es).map FolderInfo.size).sum),
         c0 + (immFileCount RESTRICTED_FOLDERS es
                + ((subsOfT es).map FolderInfo.fileCount).sum),
         subs0 ++ subsOfT es) := by
  intro es
  induction es with
  | nil =>
      intro s0 c0 subs0
      simp [Transfer.collectList, immFileSizes, immFileCount, subsOfT]
  | cons e rest ih =>
      intro s0 c0 subs0
      cases e with
      | file n s m =>
          by_cases h : n ∈ RESTRICTED_FOLDERS <;>
            simp [Transfer.collectList, Entry.name, h, immFileSizes, immFileCount,
              subsOfT, ih, Nat.add_assoc, Nat.add_comm, Nat.add_left_comm]
      | dir n ss r es2 =>
          by_cases h : n ∈ RESTRICTED_FOLDERS <;>
            simp [Transfer.collectList, Entry.name, h, immFileSizes, immFileCount,
              subsOfT, ih, Nat.add_assoc, Nat.add_comm, Nat.add_left_comm]
      | statFail n =>
          by_cases h : n ∈ RESTRICTED_FOLDERS <;>
            simp [Transfer.collectList, Entry.name, h, immFileSizes, immFileCount,
              subsOfT, ih]

theorem Part000.collectListSpecP :
    ∀ (es : List Entry) (s0 c0 : Nat) (subs0 : List FolderInfo),
      Part000.collectList es (s0, c0, subs0) =
        (s0 + (immFileSizes RESTRICTED_FOLDERS es
                + ((subsOfP es).map FolderInfo.size).sum),
         c0 + (immFileCount RESTRICTED_FOLDERS es
                + ((subsOfP es).map FolderInfo.fileCount).sum),
         subs0 ++ subsOfP es) := by
  intro es
  induction es with
  | nil =>
      intro s0 c0 subs0
      simp [Part000.collectList, immFileSizes, immFileCount, subsOfP]
  | cons e rest ih =>
      intro s0 c0 subs0
      cases e with
      | file n s m =>
          by_cases h : n ∈ RESTRICTED_FOLDERS <;>
            simp [Part000.collectList, Entry.name, h, immFileSizes, immFileCount,
              subsOfP, ih, Nat.add_assoc, Nat.add_comm, Nat.add_left_comm]
      | dir n ss r es2 =>
          by_cases h : n ∈ RESTRICTED_FOLDERS <;>
            simp [Part000.collectList, Entry.name, h, immFileSizes, immFileCount,
              subsOfP, ih, Nat.add_assoc, Nat.add_comm, Nat.add_left_comm]
      | statFail n =>
          by_cases h : n ∈ RESTRICTED_FOLDERS <;>
            simp [Part000.collectList, Entry.name, h, immFileSizes, immFileCount,
              subsOfP, ih]

theorem FolderUtils.goList_spec :
    ∀ (es : List Entry) (s0 f0 c0 : Nat) (subs0 : List FolderInfo),
      FolderUtils.goList es (s0, f0, c0, subs0) =
        (s0 + (immFileSizes FolderUtils.RESTRICTED_FOLDERS es
                + ((subsOfU es).map FolderInfo.size).sum),
         f0 + immDirCountU es,
         c0 + (immFileCount FolderUtils.RESTRICTED_FOLDERS es
                + ((subsOfU es).map FolderInfo.fileCount).sum),
         subs0 ++ subsOfU es) := by
  intro es
  induction es with
  | nil =>
      intro s0 f0 c0 subs0
      simp [FolderUtils.goList, immFileSizes, immFileCount, immDirCountU, subsOfU]
  | cons e rest ih =>
      intro s0 f0 c0 subs0
      cases e with
      | file n s m =>
          by_cases h : n ∈ FolderUtils.RESTRICTED_FOLDERS <;>
            simp [FolderUtils.goList, Entry.name, h, immFileSizes, immFileCount,
              immDirCountU, subsOfU, ih, Nat.add_assoc, Nat.add_comm, Nat.add_left_comm]
      | dir n ss r es2 =>
          by_cases h : n ∈ FolderUtils.RESTRICTED_FOLDERS
          · simp [FolderUtils.goList, Entry.name, h, immFileSizes, immFileCount,
              immDirCountU, subsOfU, ih]
          · cases hg : FolderUtils.getFolderInfo (.dir n ss r es2) with
            | ok sub =>
                simp [FolderUtils.goList, Entry.name, h, hg, immFileSizes,
                  immFileCount, immDirCountU, subsOfU, ih, Nat.add_assoc,
                  Nat.add_comm, Nat.add_left_comm]
            | error msg =>
                simp [FolderUtils.goList, Entry.name, h, hg, immFileSizes,
                  immFileCount, immDirCountU, subsOfU, ih, Nat.add_assoc,
                  Nat.add_comm, Nat.add_left_comm]
      | statFail n =>
          by_cases h : n ∈ FolderUtils.RESTRICTED_FOLDERS <;>
            simp [FolderUtils.goList, Entry.name, h, immFileSizes, immFileCount,
              immDirCountU, subsOfU, ih]

theorem Transfer.collectDirClosedForm (n : String) (ss : Nat) (es : List Entry) :
    Transfer.collectFolderInfo (.dir n ss true es) =
      .mk n
        (immFileSizes RESTRICTED_FOLDERS es + ((subsOfT es).map FolderInfo.size).sum)
        0
        (immFileCount RESTRICTED_FOLDERS es + ((subsOfT es).map FolderInfo.fileCount).sum)
        (subsOfT es) none := by
  simp [Transfer.collectFolderInfo, Transfer.collectListSpecT]

theorem Part000.collectDirWithLatestClosedForm (n : String) (ss : Nat) (es : List Entry) :
    Part000.collectFolderInfo (.dir n ss true es) =
      .mk n
        (immFileSizes RESTRICTED_FOLDERS es + ((subsOfP es).map FolderInfo.size).sum)
        0
        (immFileCount RESTRICTED_FOLDERS es + ((subsOfP es).map FolderInfo.fileCount).sum)
        (subsOfP es) (FileUtils.latestLoop es none) := by
  simp [Part000.collectFolderInfo, Part000.collectListSpecP]

theorem FolderUtils.getFolderInfo_dir (n : String) (ss : Nat) (es : List Entry) :
    FolderUtils.getFolderInfo (.dir n ss true es) =
      .ok (.mk n
        (ss + (immFileSizes FolderUtils.RESTRICTED_FOLDERS es
                + ((subsOfU es).map FolderInfo.size).sum))
        (immDirCountU es)
        (immFileCount FolderUtils.RESTRICTED_FOLDERS es
          + ((subsOfU es).map FolderInfo.fileCount).sum)
        (subsOfU es) none) := by
  simp [FolderUtils.getFolderInfo, FolderUtils.goList_spec]

/-!  Append and skip lemmas for the measuring functions. -/

theorem immFileSizes_append (R : List String) (l1 l2 : List Entry) :
    immFileSizes R (l1 ++ l2) = immFileSizes R l1 + immFileSizes R l2 := by
  induction l1 with
  | nil => simp [immFileSizes]
  | cons e rest ih =>
      cases e <;> simp [immFileSizes, ih, Nat.add_assoc]

theorem immFileCount_append (R : List String) (l1 l2 : List Entry) :
    immFileCount R (l1 ++ l2) = immFileCount R l1 + immFileCount R l2 := by
  induction l1 with
  | nil => simp [immFileCount]
  | cons e rest ih =>
      cases e <;> simp [immFileCount, ih, Nat.add_assoc]

theorem subsOfT_append (l1 l2 : List Entry) :
    subsOfT (l1 ++ l2) = subsOfT l1 ++ subsOfT l2 := by
  induction l1 with
  | nil => simp [subsOfT]
  | cons e rest ih =>
      cases e with
      | dir n ss r es =>
          by_cases h : n ∈ RESTRICTED_FOLDERS <;> simp [subsOfT, h, ih]
      | file n s m => simp [subsOfT, ih]
      | statFail n => simp [subsOfT, ih]

theorem subsOfP_append (l1 l2 : List Entry) :
    subsOfP (l1 ++ l2) = subsOfP l1 ++ subsOfP l2 := by
  induction l1 with
  | nil => simp [subsOfP]
  | cons e rest ih =>
      cases e with
      | dir n ss r es =>
          by_cases h : n ∈ RESTRICTED_FOLDERS <;> simp [subsOfP, h, ih]
      | file n s m => simp [subsOfP, ih]
      | statFail n => simp [subsOfP, ih]

theorem subsOfU_append (l1 l2 : List Entry) :
    subsOfU (l1 ++ l2) = subsOfU l1 ++ subsOfU l2 := by
  induction l1 with
  | nil => simp [subsOfU]
  | cons e rest ih =>
      cases e with
      | dir n ss r es =>
          by_cases h : n ∈ FolderUtils.RESTRICTED_FOLDERS
          · simp [subsOfU, h, ih]
          · cases hg : FolderUtils.getFolderInfo (.dir n ss r es) <;>
              simp [subsOfU, h, hg, ih]
      | file n s m => simp [subsOfU, ih]
      | statFail n => simp [subsOfU, ih]

theorem FileUtils.latestLoop_append (l1 l2 : List Entry) :
    ∀ acc, FileUtils.latestLoop (l1 ++ l2) acc =
      FileUtils.latestLoop l2 (FileUtils.latestLoop l1 acc) := by
  induction l1 with
  | nil => intro acc; simp [FileUtils.latestLoop]
  | cons e rest ih =>
      intro acc
      cases e with
      | file n s m =>
          cases acc with
          | none => simp [FileUtils.latestLoop, ih]
          | some l =>
              by_cases h : l.lastModifiedSec * 1000 < m <;>
                simp [FileUtils.latestLoop, h, ih]
      | dir n ss r es => simp [FileUtils.latestLoop, ih]
      | statFail n => simp [FileUtils.latestLoop, ih]

/-!  `folderCount` accounting for `getFolderInfo`. -/

theorem immDirCountU_eq (es : List Entry) :
    immDirCountU es = (subsOfU es).length + failedDirCountU es := by
  induction es with
  | nil => simp [immDirCountU, subsOfU, failedDirCountU]
  | cons e rest ih =>
      cases e with
      | file n s m => simp [immDirCountU, subsOfU, failedDirCountU, ih]
      | statFail n => simp [immDirCountU, subsOfU, failedDirCountU, ih]
      | dir n ss r es2 =>
          cases r with
          | false =>
              by_cases h : n ∈ FolderUtils.RESTRICTED_FOLDERS <;>
                simp [immDirCountU, subsOfU, failedDirCountU, h, ih,
                  FolderUtils.getFolderInfo, Nat.add_assoc, Nat.add_comm,
                  Nat.add_left_comm]
          | true =>
              by_cases h : n ∈ FolderUtils.RESTRICTED_FOLDERS <;>
                simp [immDirCountU, subsOfU, failedDirCountU, h, ih,
                  FolderUtils.getFolderInfo_dir, Nat.add_assoc, Nat.add_comm,
                  Nat.add_left_comm]

/-!  Filtering out restricted basenames does not change what the
`transfer.ts` / `part_000` scanners tally. -/

theorem mem_of_contains {R : List String} {n : String}
    (h : R.contains n = true) : n ∈ R := by
  simpa using h

theorem not_mem_of_contains {R : List String} {n : String}
    (h : R.contains n = false) : n ∉ R := by
  simpa using h

theorem immFileSizes_filter (R : List String) (es : List Entry) :
    immFileSizes R (es.filter (keepEntry R)) = immFileSizes R es := by
  induction es with
  | nil => simp [immFileSizes]
  | cons e rest ih =>
      cases e with
      | file n s m =>
          cases hb : (R).contains n with
          | true =>
              have hm := mem_of_contains hb
              have hk : keepEntry (R) (Entry.file n s m) = false := by
                simp only [keepEntry, Entry.name, hb, Bool.not_true]
              simp [List.filter_cons, hk, hm, ih, immFileSizes]
          | false =>
              have hm := not_mem_of_contains hb
              have hk : keepEntry (R) (Entry.file n s m) = true := by
                simp only [keepEntry, Entry.name, hb, Bool.not_false]
              simp [List.filter_cons, hk, hm, ih, immFileSizes]
      | dir n ss r es2 =>
          cases hb : (R).contains n with
          | true =>
              have hm := mem_of_contains hb
              have hk : keepEntry (R) (Entry.dir n ss r es2) = false := by
                simp only [keepEntry, Entry.name, hb, Bool.not_true]
              simp [List.filter_cons, hk, hm, ih, immFileSizes]
          | false =>
              have hm := not_mem_of_contains hb
              have hk : keepEntry (R) (Entry.dir n ss r es2) = true := by
                simp only [keepEntry, Entry.name, hb, Bool.not_false]
              simp [List.filter_cons, hk, hm, ih, immFileSizes]
      | statFail n =>
          cases hb : (R).contains n with
          | true =>
              have hm := mem_of_contains hb
              have hk : keepEntry (R) (Entry.statFail n) = false := by
                simp only [keepEntry, Entry.name, hb, Bool.not_true]
              simp [List.filter_cons, hk, hm, ih, immFileSizes]
          | false =>
              have hm := not_mem_of_contains hb
              have hk : keepEntry (R) (Entry.statFail n) = true := by
                simp only [keepEntry, Entry.name, hb, Bool.not_false]
              simp [List.filter_cons, hk, hm, ih, immFileSizes]

theorem immFileCount_filter (R : List String) (es : List Entry) :
    immFileCount R (es.filter (keepEntry R)) = immFileCount R es := by
  induction es with
  | nil => simp [immFileCount]
  | cons e rest ih =>
      cases e with
      | file n s m =>
          cases hb : (R).contains n with
          | true =>
              have hm := mem_of_contains hb
              have hk : keepEntry (R) (Entry.file n s m) = false := by
                simp only [keepEntry, Entry.name, hb, Bool.not_true]
              simp [List.filter_cons, hk, hm, ih, immFileCount]
          | false =>
              have hm := not_mem_of_contains hb
              have hk : keepEntry (R) (Entry.file n s m) = true := by
                simp only [keepEntry, Entry.name, hb, Bool.not_false]
              simp [List.filter_cons, hk, hm, ih, immFileCount]
      | dir n ss r es2 =>
          cases hb : (R).contains n with
          | true =>
              have hm := mem_of_contains hb
              have hk : keepEntry (R) (Entry.dir n ss r es2) = false := by
                simp only [keepEntry, Entry.name, hb, Bool.not_true]
              simp [List.filter_cons, hk, hm, ih, immFileCount]
          | false =>
              have hm := not_mem_of_contains hb
              have hk : keepEntry (R) (Entry.dir n ss r es2) = true := by
                simp only [keepEntry, Entry.name, hb, Bool.not_false]
              simp [List.filter_cons, hk, hm, ih, immFileCount]
      | statFail n =>
          cases hb : (R).contains n with
          | true =>
              have hm := mem_of_contains hb
              have hk : keepEntry (R) (Entry.statFail n) = false := by
                simp only [keepEntry, Entry.name, hb, Bool.not_true]
              simp [List.filter_cons, hk, hm, ih, immFileCount]
          | false =>
              have hm := not_mem_of_contains hb
              have hk : keepEntry (R) (Entry.statFail n) = true := by
                simp only [keepEntry, Entry.name, hb, Bool.not_false]
              simp [List.filter_cons, hk, hm, ih, immFileCount]

theorem subsOfT_filter (es : List Entry) :
    subsOfT (es.filter (keepEntry RESTRICTED_FOLDERS)) = subsOfT es := by
  induction es with
  | nil => simp [subsOfT]
  | cons e rest ih =>
      cases e with
      | file n s m =>
          cases hb : (RESTRICTED_FOLDERS).contains n with
          | true =>
              have hm := mem_of_contains hb
              have hk : keepEntry (RESTRICTED_FOLDERS) (Entry.file n s m) = false := by
                simp only [keepEntry, Entry.name, hb, Bool.not_true]
              simp [List.filter_cons, hk, hm, ih, subsOfT]
          | false =>
              have hm := not_mem_of_contains hb
              have hk : keepEntry (RESTRICTED_FOLDERS) (Entry.file n s m) = true := by
                simp only [keepEntry, Entry.name, hb, Bool.not_false]
              simp [List.filter_cons, hk, hm, ih, subsOfT]
      | dir n ss r es2 =>
          cases hb : (RESTRICTED_FOLDERS).contains n with
          | true =>
              have hm := mem_of_contains hb
              have hk : keepEntry (RESTRICTED_FOLDERS) (Entry.dir n ss r es2) = false := by
                simp only [keepEntry, Entry.name, hb, Bool.not_true]
              simp [List.filter_cons, hk, hm, ih, subsOfT]
          | false =>
              have hm := not_mem_of_contains hb
              have hk : keepEntry (RESTRICTED_FOLDERS) (Entry.dir n ss r es2) = true := by
                simp only [keepEntry, Entry.name, hb, Bool.not_false]
              simp [List.filter_cons, hk, hm, ih, subsOfT]
      | statFail n =>
          cases hb : (RESTRICTED_FOLDERS).contains n with
          | true =>
              have hm := mem_of_contains hb
              have hk : keepEntry (RESTRICTED_FOLDERS) (Entry.statFail n) = false := by
                simp only [keepEntry, Entry.name, hb, Bool.not_true]
              simp [List.filter_cons, hk, hm, ih, subsOfT]
          | false =>
              have hm := not_mem_of_contains hb
              have hk : keepEntry (RESTRICTED_FOLDERS) (Entry.statFail n) = true := by
                simp only [keepEntry, Entry.name, hb, Bool.not_false]
              simp [List.filter_cons, hk, hm, ih, subsOfT]

theorem subsOfP_filter (es : List Entry) :
    subsOfP (es.filter (keepEntry RESTRICTED_FOLDERS)) = subsOfP es := by
  induction es with
  | nil => simp [subsOfP]
  | cons e rest ih =>
      cases e with
      | file n s m =>
          cases hb : (RESTRICTED_FOLDERS).contains n with
          | true =>
              have hm := mem_of_contains hb
              have hk : keepEntry (RESTRICTED_FOLDERS) (Entry.file n s m) = false := by
                simp only [keepEntry, Entry.name, hb, Bool.not_true]
              simp [List.filter_cons, hk, hm, ih, subsOfP]
          | false =>
              have hm := not_mem_of_contains hb
              have hk : keepEntry (RESTRICTED_FOLDERS) (Entry.file n s m) = true := by
                simp only [keepEntry, Entry.name, hb, Bool.not_false]
              simp [List.filter_cons, hk, hm, ih, subsOfP]
      | dir n ss r es2 =>
          cases hb : (RESTRICTED_FOLDERS).contains n with
          | true =>
              have hm := mem_of_contains hb
              have hk : keepEntry (RESTRICTED_FOLDERS) (Entry.dir n ss r es2) = false := by
                simp only [keepEntry, Entry.name, hb, Bool.not_true]
              simp [List.filter_cons, hk, hm, ih, subsOfP]
          | false =>
              have hm := not_mem_of_contains hb
              have hk : keepEntry (RESTRICTED_FOLDERS) (Entry.dir n ss r es2) = true := by
                simp only [keepEntry, Entry.name, hb, Bool.not_false]
              simp [List.filter_cons, hk, hm, ih, subsOfP]
      | statFail n =>
          cases hb : (RESTRICTED_FOLDERS).contains n with
          | true =>
              have hm := mem_of_contains hb
              have hk : keepEntry (RESTRICTED_FOLDERS) (Entry.statFail n) = false := by
                simp only [keepEntry, Entry.name, hb, Bool.not_true]
              simp [List.filter_cons, hk, hm, ih, subsOfP]
          | false =>
              have hm := not_mem_of_contains hb
              have hk : keepEntry (RESTRICTED_FOLDERS) (Entry.statFail n) = true := by
                simp only [keepEntry, Entry.name, hb, Bool.not_false]
              simp [List.filter_cons, hk, hm, ih, subsOfP]

/-!  The size-formatting loop. -/

theorem FolderUtils.formatLoop_step (fuel : Nat) (s : ℚ) (i : Nat)
    (h1 : 1024 ≤ s) (h2 : i < 4) :
    FolderUtils.formatLoop (fuel + 1) s i
      = FolderUtils.formatLoop fuel (s / 1024) (i + 1) := by
  simp [FolderUtils.formatLoop, h1, h2]

theorem FolderUtils.formatLoop_stop (fuel : Nat) (s : ℚ) (i : Nat)
    (h : ¬(1024 ≤ s ∧ i < 4)) :
    FolderUtils.formatLoop fuel s i = (s, i) := by
  cases fuel <;> simp [FolderUtils.formatLoop, h]

theorem formatLoops_eq :
    ∀ (fuel : Nat) (s : ℚ) (i : Nat),
      FolderUtils.formatLoop fuel s i = FileUtils.formatLoop fuel s i
      ∧ FolderUtils.formatLoop fuel s i = Transfer.formatLoop fuel s i := by
  intro fuel
  induction fuel with
  | zero =>
      intro s i
      simp [FolderUtils.formatLoop, FileUtils.formatLoop, Transfer.formatLoop]
  | succ f ih =>
      intro s i
      by_cases h : 1024 ≤ s ∧ i < 4
      · refine ⟨?_, ?_⟩
        · simp only [FolderUtils.formatLoop, FileUtils.formatLoop]
          rw [if_pos h, if_pos h]
          exact (ih (s / 1024) (i + 1)).1
        · simp only [FolderUtils.formatLoop, Transfer.formatLoop]
          rw [if_pos h, if_pos h]
          exact (ih (s / 1024) (i + 1)).2
      · simp [FolderUtils.formatLoop, FileUtils.formatLoop, Transfer.formatLoop, h]

theorem FolderUtils.formatLoop_spec (b : ℚ) :
    FolderUtils.formatLoop 4 b 0 = (b / 1024 ^ kOf b, kOf b) := by
  have p1 : (0 : ℚ) < 1024 := by norm_num
  by_cases h0 : b < 1024
  · rw [FolderUtils.formatLoop_stop _ _ _ (by simp [not_le.mpr h0])]
    simp [kOf, h0]
  · have hb0 : (1024 : ℚ) ≤ b := le_of_not_lt h0
    rw [FolderUtils.formatLoop_step _ _ _ hb0 (by norm_num)]
    by_cases h1 : b < 1024 ^ 2
    · have hs : b / 1024 < 1024 := by
        rw [div_lt_iff p1]
        calc b < 1024 ^ 2 := h1
          _ = 1024 * 1024 := by norm_num
      rw [FolderUtils.formatLoop_stop _ _ _ (by simp [not_le.mpr hs])]
      simp [kOf, h0, h1]
    · have hb1 : (1024 : ℚ) ≤ b / 1024 := by
        rw [le_div_iff p1]
        calc (1024 : ℚ) * 1024 = 1024 ^ 2 := by norm_num
          _ ≤ b := le_of_not_lt h1
      rw [FolderUtils.formatLoop_step _ _ _ hb1 (by norm_num)]
      have e2 : b / 1024 / 1024 = b / 1024 ^ 2 := by
        rw [div_div]; norm_num
      rw [e2]
      by_cases h2 : b < 1024 ^ 3
      · have hs : b / 1024 ^ 2 < 1024 := by
          rw [div_lt_iff (by positivity)]
          calc b < 1024 ^ 3 := h2
            _ = 1024 * 1024 ^ 2 := by norm_num
        rw [FolderUtils.formatLoop_stop _ _ _ (by simp [not_le.mpr hs])]
        simp [kOf, h0, h1, h2]
      · have hb2 : (1024 : ℚ) ≤ b / 1024 ^ 2 := by
          rw [le_div_iff (by positivity)]
          calc (1024 : ℚ) * 1024 ^ 2 = 1024 ^ 3 := by norm_num
            _ ≤ b := le_of_not_lt h2
        rw [FolderUtils.formatLoop_step _ _ _ hb2 (by norm_num)]
        have e3 : b / 1024 ^ 2 / 1024 = b / 1024 ^ 3 := by
          rw [div_div]; norm_num
        rw [e3]
        by_cases h3 : b < 1024 ^ 4
        · have hs : b / 1024 ^ 3 < 1024 := by
            rw [div_lt_iff (by positivity)]
            calc b < 1024 ^ 4 := h3
              _ = 1024 * 1024 ^ 3 := by norm_num
          rw [FolderUtils.formatLoop_stop _ _ _ (by simp [not_le.mpr hs])]
          simp [kOf, h0, h1, h2, h3]
        · have hb3 : (1024 : ℚ) ≤ b / 1024 ^ 3 := by
            rw [le_div_iff (by positivity)]
            calc (1024 : ℚ) * 1024 ^ 3 = 1024 ^ 4 := by norm_num
              _ ≤ b := le_of_not_lt h3
          rw [FolderUtils.formatLoop_step _ _ _ hb3 (by norm_num)]
          have e4 : b / 1024 ^ 3 / 1024 = b / 1024 ^ 4 := by
            rw [div_div]; norm_num
          rw [e4]
          rw [FolderUtils.formatLoop_stop _ _ _ (by simp)]
          simp [kOf, h0, h1, h2, h3]

theorem kOf_le_four (b : ℚ) : kOf b ≤ 4 := by
  unfold kOf
  split_ifs <;> norm_num

theorem kOf_upper (b : ℚ) : b / 1024 ^ kOf b < 1024 ∨ kOf b = 4 := by
  unfold kOf
  split_ifs with h0 h1 h2 h3
  · left; simpa using h0
  · left
    rw [div_lt_iff (by norm_num : (0:ℚ) < 1024 ^ 1)]
    calc b < 1024 ^ 2 := h1
      _ = 1024 * 1024 ^ 1 := by norm_num
  · left
    rw [div_lt_iff (by positivity)]
    calc b < 1024 ^ 3 := h2
      _ = 1024 * 1024 ^ 2 := by norm_num
  · left
    rw [div_lt_iff (by positivity)]
    calc b < 1024 ^ 4 := h3
      _ = 1024 * 1024 ^ 3 := by norm_num
  · right; rfl

theorem kOf_lower (b : ℚ) : ∀ j, j < kOf b → 1024 ≤ b / 1024 ^ j := by
  have key : ∀ j k : Nat, j < k → 1024 ^ k ≤ b → 1024 ≤ b / 1024 ^ j := by
    intro j k hjk hkb
    rw [le_div_iff (by positivity)]
    calc (1024 : ℚ) * 1024 ^ j = 1024 ^ (j + 1) := by
          rw [pow_succ, mul_comm]
      _ ≤ 1024 ^ k := by
          exact pow_le_pow_right (by norm_num) (by omega)
      _ ≤ b := hkb
  unfold kOf
  split_ifs with h0 h1 h2 h3
  · intro j hj; omega
  · intro j hj
    exact key j 1 hj (by simpa using le_of_not_lt h0)
  · intro j hj
    exact key j 2 hj (le_of_not_lt h1)
  · intro j hj
    exact key j 3 hj (le_of_not_lt h2)
  · intro j hj
    exact key j 4 hj (le_of_not_lt h3)

/-!  Claim theorems. -/

example :
    Transfer.collectFolderInfo
      (.dir "root" 0 true
        [.file "a" 100 0, .file "b" 250 0,
         .dir "sub" 0 true [.file "c" 50 0]])
    = .mk "root" 400 0 3 [.mk "sub" 50 0 1 [] none] none := by
  simp [Transfer.collectFolderInfo, Transfer.collectList, Entry.name,
    RESTRICTED_FOLDERS, FolderInfo.size, FolderInfo.fileCount]

/-- Claim C5: during the upload stage the local report file is unlinked
only by the write stream's clean-close handler; the upload-stream-error,
sftp-open-error and connection-error handlers never delete it, so after
a failed transfer the local report file still exists. -/
theorem claim5_delete_only_after_clean_close :
    ∀ (remotePath fileName : String) (ev : TransferEvent),
      SftpOp.unlinkLocalReport ∈ Transfer.transferOps remotePath fileName ev
        ↔ ev = TransferEvent.cleanClose := by
  intro rp fn ev
  cases ev <;> simp [Transfer.transferOps]

theorem claim5_witness :
    SftpOp.unlinkLocalReport
      ∈ Transfer.transferOps "upload" "report.json" TransferEvent.cleanClose :=
  (claim5_delete_only_after_clean_close "upload" "report.json"
    TransferEvent.cleanClose).mpr rfl

/-- Claim C6, amended: the process exit code of a `part_000` run is
non-zero (namely 1) exactly when configuration loading fails (missing
`config.json`, parse error, or a missing required field); an
inaccessible root path, a connection failure and a transfer failure all
leave the exit code 0, because only `loadConfig` ever calls
`process.exit(1)` while every other error handler merely logs. -/
theorem claim6_exit_code_only_config :
    ∀ (cfg : Option Config) (root : Entry) (ev : TransferEvent),
      (Part000.runExitCode cfg root ev ≠ 0
        ↔ Part000.loadConfig cfg = Except.error 1)
      ∧ (Part000.loadConfig cfg = Except.error 1 →
          Part000.runExitCode cfg root ev = 1) := by
  intro cfg root ev
  cases cfg with
  | none => simp [Part000.runExitCode, Part000.loadConfig]
  | some c =>
      by_cases h : c.folderPath = "" ∨ c.host = "" ∨ c.username = "" ∨ c.password = "" <;>
        simp [Part000.runExitCode, Part000.loadConfig, h]

theorem claim6_witness :
    Part000.runExitCode none (Entry.statFail "r") TransferEvent.cleanClose = 1 :=
  (claim6_exit_code_only_config none (Entry.statFail "r")
    TransferEvent.cleanClose).2 rfl

/-- Claim C6, counterexample to the claim as stated: a run with a fully
populated configuration whose root path is inaccessible and whose SFTP
connection fails still exits with code 0, not non-zero. -/
theorem claim6_counterexample :
    Part000.runExitCode
      (some (Config.mk "D:/data" "host" 22 "user" "pw" "upload"))
      (Entry.statFail "D:/data") TransferEvent.connectionError = 0 := by
  rfl

/-- Claim C2, amended: `getFolderInfo` (folderUtils.ts) raises exactly
when the root cannot be stat-ed or listed — it returns a `FolderInfo`
precisely on a stat-able, listable directory, whatever per-entry
failures the listing contains; `collectFolderInfo` (transfer.ts /
part_000) however never raises at all: a root whose listing fails
yields the zero-valued node instead of an error. -/
theorem claim2_fatal_error_iff :
    (∀ e : Entry,
        (∃ fi, FolderUtils.getFolderInfo e = Except.ok fi)
          ↔ ∃ n ss es, e = Entry.dir n ss true es)
    ∧ ∀ (n : String) (ss : Nat) (es : List Entry),
        Transfer.collectFolderInfo (Entry.dir n ss false es)
            = FolderInfo.mk n 0 0 0 [] none
        ∧ Part000.collectFolderInfo (Entry.dir n ss false es)
            = FolderInfo.mk n 0 0 0 [] none := by
  constructor
  · intro e
    cases e with
    | file n s m => simp [FolderUtils.getFolderInfo]
    | statFail n => simp [FolderUtils.getFolderInfo]
    | dir n ss r es =>
        cases r with
        | false => simp [FolderUtils.getFolderInfo]
        | true => simp [FolderUtils.getFolderInfo_dir]
  · intro n ss es
    exact ⟨by simp [Transfer.collectFolderInfo],
           by simp [Part000.collectFolderInfo]⟩

theorem claim2_witness :
    ∃ fi, FolderUtils.getFolderInfo (Entry.dir "r" 3 true [])
      = Except.ok fi :=
  (claim2_fatal_error_iff.1 (Entry.dir "r" 3 true [])).mpr ⟨"r", 3, [], rfl⟩

/-- Claim C2, counterexample to the claim as stated: `collectFolderInfo`
on a root whose listing fails does not raise — it returns the
zero-valued node. -/
theorem claim2_counterexample :
    Transfer.collectFolderInfo (Entry.dir "root" 7 false [Entry.file "a" 5 0])
      = FolderInfo.mk "root" 0 0 0 [] none := by
  simp [Transfer.collectFolderInfo]

/-- Claim C9: for `getFolderInfo`, `folderCount` counts exactly the
immediate non-restricted children whose stat succeeds and reports a
directory — including those whose recursive scan then fails — so
`folderCount = subFolders.length + (number of failed child scans)`,
hence `folderCount ≥ subFolders.length` with strict inequality exactly
when at least one child recursion failed. -/
theorem claim9_folder_count :
    ∀ (n : String) (ss : Nat) (es : List Entry),
      ∃ fi, FolderUtils.getFolderInfo (Entry.dir n ss true es) = Except.ok fi
        ∧ fi.folderCount = immDirCountU es
        ∧ fi.folderCount = fi.subFolders.length + failedDirCountU es
        ∧ (fi.subFolders.length < fi.folderCount ↔ 0 < failedDirCountU es) := by
  intro n ss es
  refine ⟨_, FolderUtils.getFolderInfo_dir n ss es, ?_, ?_, ?_⟩
  · simp [FolderInfo.folderCount]
  · simp [FolderInfo.folderCount, FolderInfo.subFolders, immDirCountU_eq]
  · simp only [FolderInfo.folderCount, FolderInfo.subFolders, immDirCountU_eq]
    omega

theorem claim9_witness :
    ∃ fi, FolderUtils.getFolderInfo
        (Entry.dir "r" 0 true [Entry.dir "c" 0 false [], Entry.dir "d" 1 true []])
        = Except.ok fi
      ∧ fi.folderCount
          = immDirCountU [Entry.dir "c" 0 false [], Entry.dir "d" 1 true []]
      ∧ fi.folderCount = fi.subFolders.length
          + failedDirCountU [Entry.dir "c" 0 false [], Entry.dir "d" 1 true []]
      ∧ (fi.subFolders.length < fi.folderCount
          ↔ 0 < failedDirCountU [Entry.dir "c" 0 false [], Entry.dir "d" 1 true []]) :=
  claim9_folder_count "r" 0 [Entry.dir "c" 0 false [], Entry.dir "d" 1 true []]

/-- Claim C8: the string-variant `getLatestModifiedFile` (the one
`part_000` uses) compares each candidate's millisecond `stat.mtime`
against the stored candidate's `lastModified` string, which was
truncated to whole seconds by `formatDate`; on a tie at an instant with
a non-zero sub-second part the later-listed file therefore replaces the
earlier one (last-wins, not first-wins), and a strictly older file can
even replace a newer one — while the `Date`-variant keeps the first of
the tied set, as the claim describes.  Listing
`[a (mtime 1500 ms), b (mtime 1500 ms)]` shares one maximal instant:
the string variant returns `b`, the Date variant returns `a`; listing
`[a (1900 ms), b (1100 ms)]` makes the string variant return the
strictly older `b`. -/
theorem claim8_tie_break_evaluation :
    FileUtils.getLatestModifiedFile
        (Entry.dir "d" 0 true [Entry.file "a" 1 1500, Entry.file "b" 2 1500])
      = some (FileInfo.mk "b" 2 1)
    ∧ FileUtilsB.getLatestModifiedFile
        (Entry.dir "d" 0 true [Entry.file "a" 1 1500, Entry.file "b" 2 1500])
      = some (FileInfoB.mk "a" 1 1500)
    ∧ FileUtils.getLatestModifiedFile
        (Entry.dir "d" 0 true [Entry.file "a" 1 1900, Entry.file "b" 2 1100])
      = some (FileInfo.mk "b" 2 1) := by
  refine ⟨rfl, rfl, rfl⟩

/-- Claim C3, amended: for `collectFolderInfo` (part_000) the claim
holds exactly as stated — a non-root child directory whose listing
fails yields a node with `size = 0`, `fileCount = 0`, `subFolders = []`
and no `latestFile`, the node is present in the parent's `subFolders`
at its listing position, the siblings are still processed, and the
parent's size, file count and `latestFile` are exactly as if the failed
subtree were empty.  For `getFolderInfo` (folderUtils.ts) however the
failed child is omitted from `subFolders` (only `folderCount` records
the attempt) — see the counterexample. -/
theorem claim3_failed_subtree :
    ∀ (c : String) (css : Nat) (ces : List Entry)
      (p : String) (pss : Nat) (pre post : List Entry),
      c ∉ RESTRICTED_FOLDERS →
      Part000.collectFolderInfo (Entry.dir c css false ces)
          = FolderInfo.mk c 0 0 0 [] none
      ∧ (Part000.collectFolderInfo
            (Entry.dir p pss true (pre ++ Entry.dir c css false ces :: post))).size
          = (Part000.collectFolderInfo (Entry.dir p pss true (pre ++ post))).size
      ∧ (Part000.collectFolderInfo
            (Entry.dir p pss true (pre ++ Entry.dir c css false ces :: post))).fileCount
          = (Part000.collectFolderInfo (Entry.dir p pss true (pre ++ post))).fileCount
      ∧ (Part000.collectFolderInfo
            (Entry.dir p pss true (pre ++ Entry.dir c css false ces :: post))).latestFile
          = (Part000.collectFolderInfo (Entry.dir p pss true (pre ++ post))).latestFile
      ∧ (Part000.collectFolderInfo
            (Entry.dir p pss true (pre ++ Entry.dir c css false ces :: post))).subFolders
          = subsOfP pre ++ FolderInfo.mk c 0 0 0 [] none :: subsOfP post
      ∧ (Part000.collectFolderInfo (Entry.dir p pss true (pre ++ post))).subFolders
          = subsOfP pre ++ subsOfP post := by
  intro c css ces p pss pre post hc
  have hzero : Part000.collectFolderInfo (Entry.dir c css false ces)
      = FolderInfo.mk c 0 0 0 [] none := by
    simp [Part000.collectFolderInfo]
  refine ⟨hzero, ?_, ?_, ?_, ?_, ?_⟩
  · simp [Part000.collectDirWithLatestClosedForm, FolderInfo.size,
      immFileSizes_append, subsOfP_append, immFileSizes, subsOfP, hc, hzero,
      Nat.add_assoc, Nat.add_comm, Nat.add_left_comm]
  · simp [Part000.collectDirWithLatestClosedForm, FolderInfo.fileCount,
      immFileCount_append, subsOfP_append, immFileCount, subsOfP, hc, hzero,
      Nat.add_assoc, Nat.add_comm, Nat.add_left_comm]
  · simp [Part000.collectDirWithLatestClosedForm, FolderInfo.latestFile,
      FileUtils.latestLoop_append, FileUtils.latestLoop]
  · simp [Part000.collectDirWithLatestClosedForm, FolderInfo.subFolders,
      subsOfP_append, subsOfP, hc, hzero]
  · simp [Part000.collectDirWithLatestClosedForm, FolderInfo.subFolders, subsOfP_append]

theorem claim3_witness :
    Part000.collectFolderInfo (Entry.dir "c" 0 false [])
        = FolderInfo.mk "c" 0 0 0 [] none
    ∧ (Part000.collectFolderInfo (Entry.dir "p" 0 true [Entry.dir "c" 0 false []])).size
        = (Part000.collectFolderInfo (Entry.dir "p" 0 true [])).size
    ∧ (Part000.collectFolderInfo (Entry.dir "p" 0 true [Entry.dir "c" 0 false []])).fileCount
        = (Part000.collectFolderInfo (Entry.dir "p" 0 true [])).fileCount
    ∧ (Part000.collectFolderInfo (Entry.dir "p" 0 true [Entry.dir "c" 0 false []])).latestFile
        = (Part000.collectFolderInfo (Entry.dir "p" 0 true [])).latestFile
    ∧ (Part000.collectFolderInfo (Entry.dir "p" 0 true [Entry.dir "c" 0 false []])).subFolders
        = subsOfP [] ++ FolderInfo.mk "c" 0 0 0 [] none :: subsOfP []
    ∧ (Part000.collectFolderInfo (Entry.dir "p" 0 true [])).subFolders
        = subsOfP [] ++ subsOfP [] :=
  claim3_failed_subtree "c" 0 [] "p" 0 [] [] (by decide)

/-- Claim C3, counterexample to the claim as stated: `getFolderInfo`
omits the node of a child whose directory read fails — scanning a
parent with a single unreadable child yields `subFolders = []` (no
zero-valued node is present; only `folderCount = 1` records the
attempt). -/
theorem claim3_counterexample :
    FolderUtils.getFolderInfo (Entry.dir "p" 0 true [Entry.dir "c" 0 false []])
      = Except.ok (FolderInfo.mk "p" 0 1 0 [] none) := by
  simp [FolderUtils.getFolderInfo, FolderUtils.goList, Entry.name,
    FolderUtils.RESTRICTED_FOLDERS]

/-- Claim C4: for the `transfer.ts` / `part_000` scanners, an entry
whose basename is exactly (case-sensitively) a member of
`RESTRICTED_FOLDERS` is excluded entirely — scanning a listing gives
the same result as scanning the listing with all restricted-basename
entries removed, so restricted entries appear in no `subFolders` and
contribute zero to every ancestor's `size` and `fileCount` even when
they are directories containing files; and an entry whose basename is
not a member is never skipped by this rule — a non-restricted file
always contributes its size and one file count.  (For `part_000` the
equality is stated on `size`, `fileCount` and `subFolders`, the fields
the claim names.) -/
theorem claim4_restricted_exact_basename :
    ∀ (n : String) (ss : Nat) (es : List Entry),
      (Transfer.collectFolderInfo (Entry.dir n ss true es)
        = Transfer.collectFolderInfo
            (Entry.dir n ss true (es.filter (keepEntry RESTRICTED_FOLDERS))))
      ∧ ((Part000.collectFolderInfo (Entry.dir n ss true es)).size
            = (Part000.collectFolderInfo
                (Entry.dir n ss true (es.filter (keepEntry RESTRICTED_FOLDERS)))).size
        ∧ (Part000.collectFolderInfo (Entry.dir n ss true es)).fileCount
            = (Part000.collectFolderInfo
                (Entry.dir n ss true (es.filter (keepEntry RESTRICTED_FOLDERS)))).fileCount
        ∧ (Part000.collectFolderInfo (Entry.dir n ss true es)).subFolders
            = (Part000.collectFolderInfo
                (Entry.dir n ss true (es.filter (keepEntry RESTRICTED_FOLDERS)))).subFolders)
      ∧ (∀ (fn : String) (s m : Nat) (pre post : List Entry),
          fn ∉ RESTRICTED_FOLDERS →
          (Transfer.collectFolderInfo
              (Entry.dir n ss true (pre ++ Entry.file fn s m :: post))).size
            = (Transfer.collectFolderInfo (Entry.dir n ss true (pre ++ post))).size + s
          ∧ (Transfer.collectFolderInfo
              (Entry.dir n ss true (pre ++ Entry.file fn s m :: post))).fileCount
            = (Transfer.collectFolderInfo (Entry.dir n ss true (pre ++ post))).fileCount + 1
          ∧ (Transfer.collectFolderInfo
              (Entry.dir n ss true (pre ++ Entry.file fn s m :: post))).subFolders
            = (Transfer.collectFolderInfo (Entry.dir n ss true (pre ++ post))).subFolders) := by
  intro n ss es
  refine ⟨?_, ⟨?_, ?_, ?_⟩, ?_⟩
  · simp [Transfer.collectDirClosedForm, immFileSizes_filter, immFileCount_filter,
      subsOfT_filter]
  · simp [Part000.collectDirWithLatestClosedForm, FolderInfo.size, immFileSizes_filter,
      subsOfP_filter]
  · simp [Part000.collectDirWithLatestClosedForm, FolderInfo.fileCount, immFileCount_filter,
      subsOfP_filter]
  · simp [Part000.collectDirWithLatestClosedForm, FolderInfo.subFolders, subsOfP_filter]
  · intro fn s m pre post hfn
    refine ⟨?_, ?_, ?_⟩
    · simp [Transfer.collectDirClosedForm, FolderInfo.size, immFileSizes_append,
        subsOfT_append, immFileSizes, subsOfT, hfn,
        Nat.add_assoc, Nat.add_comm, Nat.add_left_comm]
    · simp [Transfer.collectDirClosedForm, FolderInfo.fileCount, immFileCount_append,
        subsOfT_append, immFileCount, subsOfT, hfn,
        Nat.add_assoc, Nat.add_comm, Nat.add_left_comm]
    · simp [Transfer.collectDirClosedForm, FolderInfo.subFolders, subsOfT_append,
        subsOfT]

theorem claim4_witness :
    (Transfer.collectFolderInfo
        (Entry.dir "r" 0 true [Entry.file "data.txt" 10 0])).size
      = (Transfer.collectFolderInfo (Entry.dir "r" 0 true [])).size + 10
    ∧ (Transfer.collectFolderInfo
        (Entry.dir "r" 0 true [Entry.file "data.txt" 10 0])).fileCount
      = (Transfer.collectFolderInfo (Entry.dir "r" 0 true [])).fileCount + 1
    ∧ (Transfer.collectFolderInfo
        (Entry.dir "r" 0 true [Entry.file "data.txt" 10 0])).subFolders
      = (Transfer.collectFolderInfo (Entry.dir "r" 0 true [])).subFolders :=
  (claim4_restricted_exact_basename "r" 0 []).2.2 "data.txt" 10 0 [] [] (by decide)

/-- Claim C1, amended: the aggregation invariant
`node.size = (immediate regular-file sizes) + sum of child sizes` and
its `fileCount` analogue hold exactly as claimed for `collectFolderInfo`
(both the `transfer.ts` and the `part_000` variant); for `getFolderInfo`
(folderUtils.ts) `fileCount` aggregates as claimed but `node.size`
additionally contains the directory's own stat size (the scan seeds
`info.size` with `stats.size` at every node), so there
`node.size = dir-stat-size + immediate file sizes + sum of child sizes`.
"Immediate regular files" are the listing's file entries that survive
the restricted-name filter (stat-failed entries are invisible to the
scan). -/
theorem claim1_aggregation :
    ∀ (n : String) (ss : Nat) (es : List Entry),
      ((Transfer.collectFolderInfo (Entry.dir n ss true es)).size
          = immFileSizes RESTRICTED_FOLDERS es
            + (((Transfer.collectFolderInfo (Entry.dir n ss true es)).subFolders).map
                FolderInfo.size).sum
        ∧ (Transfer.collectFolderInfo (Entry.dir n ss true es)).fileCount
          = immFileCount RESTRICTED_FOLDERS es
            + (((Transfer.collectFolderInfo (Entry.dir n ss true es)).subFolders).map
                FolderInfo.fileCount).sum)
      ∧ ((Part000.collectFolderInfo (Entry.dir n ss true es)).size
          = immFileSizes RESTRICTED_FOLDERS es
            + (((Part000.collectFolderInfo (Entry.dir n ss true es)).subFolders).map
                FolderInfo.size).sum
        ∧ (Part000.collectFolderInfo (Entry.dir n ss true es)).fileCount
          = immFileCount RESTRICTED_FOLDERS es
            + (((Part000.collectFolderInfo (Entry.dir n ss true es)).subFolders).map
                FolderInfo.fileCount).sum)
      ∧ (∃ fi, FolderUtils.getFolderInfo (Entry.dir n ss true es) = Except.ok fi
          ∧ fi.size = ss + (immFileSizes FolderUtils.RESTRICTED_FOLDERS es
              + ((fi.subFolders).map FolderInfo.size).sum)
          ∧ fi.fileCount = immFileCount FolderUtils.RESTRICTED_FOLDERS es
              + ((fi.subFolders).map FolderInfo.fileCount).sum) := by
  intro n ss es
  refine ⟨⟨?_, ?_⟩, ⟨?_, ?_⟩, ⟨_, FolderUtils.getFolderInfo_dir n ss es, ?_, ?_⟩⟩
  · simp [Transfer.collectDirClosedForm, FolderInfo.size, FolderInfo.subFolders]
  · simp [Transfer.collectDirClosedForm, FolderInfo.fileCount, FolderInfo.subFolders]
  · simp [Part000.collectDirWithLatestClosedForm, FolderInfo.size, FolderInfo.subFolders]
  · simp [Part000.collectDirWithLatestClosedForm, FolderInfo.fileCount, FolderInfo.subFolders]
  · simp [FolderInfo.size, FolderInfo.subFolders]
  · simp [FolderInfo.fileCount, FolderInfo.subFolders]

/-- Claim C1, counterexample to the claim as stated: `getFolderInfo` on
a directory with stat size 4096 containing a single 10-byte file
reports `size = 4106`, not `10` — the directory's own stat size
contributes, contrary to the claim. -/
theorem claim1_counterexample :
    FolderUtils.getFolderInfo (Entry.dir "d" 4096 true [Entry.file "a" 10 0])
      = Except.ok (FolderInfo.mk "d" 4106 0 1 [] none)
    ∧ immFileSizes FolderUtils.RESTRICTED_FOLDERS [Entry.file "a" 10 0]
        + (([] : List FolderInfo).map FolderInfo.size).sum = 10
    ∧ (4106 : Nat) ≠ 10 := by
  refine ⟨?_, ?_, by decide⟩
  · simp [FolderUtils.getFolderInfo, FolderUtils.goList, Entry.name,
      FolderUtils.RESTRICTED_FOLDERS]
  · simp [immFileSizes, FolderUtils.RESTRICTED_FOLDERS]

/-!  `ensureRemoteDirectory`: behaviour of the segment loop. -/

theorem Transfer.ensureLoop_all_ok (mkdirRes : String → Option Nat) :
    ∀ (parts : List String) (current : String) (acc : List String),
      (∀ q ∈ segPaths parts current, mkdirRes q = none ∨ mkdirRes q = some 4) →
      Transfer.ensureLoop mkdirRes parts current acc
        = Except.ok (acc ++ segPaths parts current) := by
  intro parts
  induction parts with
  | nil =>
      intro current acc h
      simp [Transfer.ensureLoop, segPaths]
  | cons seg rest ih =>
      intro current acc h
      have hhead := h (if current = "" then seg else current ++ "/" ++ seg)
        (by simp [segPaths])
      have htail : ∀ q ∈ segPaths rest
          (if current = "" then seg else current ++ "/" ++ seg),
          mkdirRes q = none ∨ mkdirRes q = some 4 := by
        intro q hq
        exact h q (by simp [segPaths, hq])
      cases hhead with
      | inl hn =>
          simp only [Transfer.ensureLoop, hn]
          rw [ih _ _ htail]
          simp [segPaths]
      | inr h4 =>
          simp only [Transfer.ensureLoop, h4]
          rw [if_pos trivial, ih _ _ htail]
          simp [segPaths]

/-- Claim C7, amended: `ensureRemoteDirectory` as defined in
`transfer.ts` does create every path segment of the remote directory
path from the root downward — when the remote answers success or
"already exists" (error code 4) on every prefix it returns exactly the
list of prefixes, and any other creation error on a segment aborts it
with that error — but `transferFolderInfo` never invokes it: the SFTP
session of a run performs no `mkdir` at all before (or after) opening
the remote write stream, so the remote parent directories are **not**
ensured before the upload. -/
theorem claim7_remote_directories :
    (∀ (mkdirRes : String → Option Nat) (remotePath : String),
        (∀ q ∈ segPaths ((remotePath.splitOn "/").filter (fun s => s ≠ "")) "",
            mkdirRes q = none ∨ mkdirRes q = some 4) →
        Transfer.ensureRemoteDirectory mkdirRes remotePath
          = Except.ok (segPaths ((remotePath.splitOn "/").filter (fun s => s ≠ "")) ""))
    ∧ (∀ (mkdirRes : String → Option Nat) (rest : List String) (current : String)
          (acc : List String) (seg : String) (code : Nat),
        code ≠ 4 →
        mkdirRes (if current = "" then seg else current ++ "/" ++ seg) = some code →
        Transfer.ensureLoop mkdirRes (seg :: rest) current acc = Except.error code)
    ∧ (∀ (remotePath fileName : String) (ev : TransferEvent),
        (Transfer.transferOps remotePath fileName ev).all
          (fun op => !op.isMkdirCall) = true) := by
  refine ⟨?_, ?_, ?_⟩
  · intro mkdirRes rp h
    have := Transfer.ensureLoop_all_ok mkdirRes _ "" [] h
    simpa [Transfer.ensureRemoteDirectory] using this
  · intro mkdirRes rest current acc seg code hne hsome
    simp [Transfer.ensureLoop, hsome, hne]
  · intro rp fn ev
    cases ev <;> simp [Transfer.transferOps, SftpOp.isMkdirCall]

theorem claim7_witness :
    Transfer.ensureRemoteDirectory (fun _ => none) "upload/busan"
      = Except.ok
          (segPaths ((("upload/busan").splitOn "/").filter (fun s => s ≠ "")) "") :=
  claim7_remote_directories.1 (fun _ => none) "upload/busan"
    (fun _ _ => Or.inl rfl)

/-- Claim C7, counterexample to the claim as stated: a run that reaches
the upload performs exactly an `openWrite`, the unlink and the teardown
— no `mkdir` of any path segment ever happens before the report file is
uploaded. -/
theorem claim7_counterexample :
    Transfer.transferOps "upload/busan" "busan-2024.json" TransferEvent.cleanClose
      = [SftpOp.openWrite "upload/busan/busan-2024.json",
         SftpOp.unlinkLocalReport, SftpOp.endConnection] := by
  rfl

/-- Claim C10: the three size formatters are extensionally equal, and
each renders `toFixed2 (bytes / 1024 ^ k)` followed by the unit
`["B","KB","MB","GB","TB"][k]`, where `k` is the smallest index with
`bytes / 1024 ^ k < 1024`, capped at `k = 4`. -/
theorem claim10_format_size_equivalence :
    ∀ b : ℚ,
      (FolderUtils.formatSize b = FileUtils.formatFileSize b
        ∧ FolderUtils.formatSize b = Transfer.formatSize b)
      ∧ FolderUtils.formatSize b
          = toFixed2 (b / 1024 ^ kOf b) ++ " " ++ unitsList.getD (kOf b) ""
      ∧ kOf b ≤ 4
      ∧ (b / 1024 ^ kOf b < 1024 ∨ kOf b = 4)
      ∧ (∀ j, j < kOf b → 1024 ≤ b / 1024 ^ j) := by
  intro b
  refine ⟨⟨?_, ?_⟩, ?_, kOf_le_four b, kOf_upper b, kOf_lower b⟩
  · simp [FolderUtils.formatSize, FileUtils.formatFileSize, (formatLoops_eq 4 b 0).1]
  · simp [FolderUtils.formatSize, Transfer.formatSize, (formatLoops_eq 4 b 0).2]
  · simp [FolderUtils.formatSize, FolderUtils.formatLoop_spec b]

theorem claim10_witness :
    (FolderUtils.formatSize 2048 = FileUtils.formatFileSize 2048
      ∧ FolderUtils.formatSize 2048 = Transfer.formatSize 2048)
    ∧ FolderUtils.formatSize 2048
        = toFixed2 (2048 / 1024 ^ kOf 2048) ++ " " ++ unitsList.getD (kOf 2048) ""
    ∧ kOf 2048 ≤ 4
    ∧ ((2048 : ℚ) / 1024 ^ kOf 2048 < 1024 ∨ kOf 2048 = 4)
    ∧ (∀ j, j < kOf 2048 → 1024 ≤ (2048 : ℚ) / 1024 ^ j) :=
  claim10_format_size_equivalence 2048
